import Mathlib

/-!
Shallow embedding of the solar-adjusted MRT engine of
`Ladybug_Outdoor Solar Temperature Adjustor.py` (Ladybug 0.0.58).

The component runs under IronPython 2, so `/` on integers is floor
division; all numeric state is modelled exactly over `ℚ`.  Calls into
external libraries (the `math` module's `sin`/`cos`/`degrees`, the
`lb_comfortModels` projected-area-factor spline lookups, the `lb_sunpath`
solar-position provider and the Rhino ray-intersection tests) are
modelled as opaque function or data parameters: the engine consumes only
their output values.  Per-hour exogenous series (`altitudes`, `azimuths`,
ray-blockage flags, the per-hour sky matrix, the count-indexed
`finalWinTransmiss`/`radTemp` selections) are supplied as lists or as
functions of the loop counter, exactly as the source builds them before
entering its per-hour loops.
-/

namespace Ladybug

/-- Python 2 `int()` applied to a float: truncation toward zero. -/
def pyInt (x : ℚ) : ℤ := if 0 ≤ x then ⌊x⌋ else ⌈x⌉

/-- Posture-dependent fraction of the body surface participating in radiant
exchange, as assigned at the top of both `main` and `mainSimple` from the
global `bodyPosture_` (`none` models an unconnected input). -/
def fracEffOf (bodyPosture : Option ℕ) : ℚ :=
  if bodyPosture = some 0 ∨ bodyPosture = some 3 then 0.725
  else if bodyPosture = some 1 ∨ bodyPosture = some 4 ∨ bodyPosture = none then 0.696
  else 0.68

/-- The fixed radiative heat transfer coefficient `radTransCoeff = 6.012`. -/
def radTransCoeff : ℚ := 6.012

/-- The `checkTheInputs` acceptance test for `groundReflectivity_`:
`groundReflectivity_ < 1 and groundReflectivity_ > 0`. -/
def acceptGroundReflectivity (x : ℚ) : Bool :=
  decide (x < 1) && decide (0 < x)

/-- The `checkTheInputs` acceptance test for `clothingAbsorptivity_`:
`clothingAbsorptivity_ < 1 and clothingAbsorptivity_ > 0`. -/
def acceptClothingAbsorptivity (x : ℚ) : Bool :=
  decide (x < 1) && decide (0 < x)

/-- The final aggregation in `checkTheInputs`: every individual check must
have passed, otherwise `checkData` is `False` and the run is not started. -/
def overallCheck (c1 c2 c3 c4 c5 c6 c7 c8 c9 : Bool) : Bool :=
  c1 && c2 && c3 && c4 && c5 && c6 && c7 && c8 && c9

/-- The `mainSimple` sky-view factor over the Tregenza view vectors with a
non-empty context: `vecBlockedList` collects a `1` for every blocked view
vector and the code computes `1 - sum(vecBlockedList)/totalVecNum`.  Both
operands are Python 2 ints, so the division is floor division; the
blocked count and the vector count are non-negative, so it coincides with
`Nat` division. -/
def skyViewFacCode (viewBlocked : List Bool) : ℚ :=
  ((1 - ((viewBlocked.filter id).length / viewBlocked.length : ℕ) : ℤ) : ℚ)

/-- The value `fBes` as computed in `nonParallelMRTCalc`/`MRTCalc` with a non-empty
context: `fBesList` holds a `1` for every unblocked body point and a `0`
for every blocked one, and `fBes = sum(fBesList)/len(fBesList)` is a
Python 2 integer floor division. -/
def fBesOf (sunBlocked : List Bool) : ℚ :=
  ((((sunBlocked.map fun b => if b then (0 : ℕ) else 1).sum) / sunBlocked.length : ℕ) : ℚ)

/-- The fraction that the `fBes` code comments describe: the share of body
points whose ray toward the sun is unobstructed, as an exact rational. -/
def fBesFraction (sunBlocked : List Bool) : ℚ :=
  (((sunBlocked.map fun b => if b then (0 : ℕ) else 1).sum : ℚ)) / (sunBlocked.length : ℚ)

/-- The fraction of unblocked hemisphere view directions described by the
sky-view comment, as an exact rational. -/
def skyViewFraction (viewBlocked : List Bool) : ℚ :=
  1 - ((viewBlocked.filter id).length : ℚ) / (viewBlocked.length : ℚ)

/-- Fuel-indexed model of the loop `while azFinal > 180: azFinal = azFinal - 180`. -/
def azLoopDown : ℕ → ℚ → ℚ
  | 0, x => x
  | n + 1, x => if 180 < x then azLoopDown n (x - 180) else x

/-- Fuel-indexed model of the loop `while azFinal < 0: azFinal = azFinal + 180`. -/
def azLoopUp : ℕ → ℚ → ℚ
  | 0, x => x
  | n + 1, x => if x < 0 then azLoopUp n (x + 180) else x

/-- The azimuth folding in `nonParallelMRTCalc`/`MRTCalc`: reduce by 180
while above 180, raise by 180 while below 0, otherwise leave unchanged. -/
def normalizeAz (fuel : ℕ) (azInit : ℚ) : ℚ :=
  if 180 < azInit then azLoopDown fuel azInit
  else if azInit < 0 then azLoopUp fuel azInit
  else azInit

/-- Run-level parameters of the low-resolution path (`mainSimple`).
`sine` and `deg` model `math.sin` and `math.degrees`; `splineStand` and
`splineSit` model the external `lb_comfortModels` projected-area-factor
lookups; `azFuel` is the fuel supplied to the azimuth folding loops. -/
structure SimpleCfg where
  bodyPosture : Option ℕ
  groundR : ℚ
  cloA : ℚ
  northAngle : ℚ
  rotationAngle : ℚ
  contextNonempty : Bool
  sine : ℚ → ℚ
  deg : ℚ → ℚ
  splineStand : ℤ → ℤ → ℚ
  splineSit : ℤ → ℤ → ℚ
  azFuel : ℕ

/-- The value `azInit`: the solar azimuth in degrees, shifted by the north angle and
the mannequin rotation angle when those are non-zero. -/
def azInitOf (cfg : SimpleCfg) (azimuthDeg : ℚ) : ℚ :=
  let a1 := if cfg.northAngle ≠ 0 then azimuthDeg + cfg.northAngle else azimuthDeg
  if cfg.rotationAngle ≠ 0 then a1 + cfg.rotationAngle else a1

/-- The value `altFinal`: `int(math.degrees(altitude))`, reduced by 90 when above 90. -/
def altFinalOf (altitudeDeg : ℚ) : ℤ :=
  let altInit := pyInt altitudeDeg
  if 90 < altInit then altInit - 90 else altInit

/-- The projected-area-factor lookup pipeline of the low-resolution path:
azimuth folding, truncation to integers, and the posture-dependent choice
of spline surface (lying postures query the standing surface at
`90 - altFinal`). -/
def projAreaFacOf (cfg : SimpleCfg) (azimuth altitude : ℚ) : ℚ :=
  let azFinal : ℤ := pyInt (normalizeAz cfg.azFuel (azInitOf cfg (cfg.deg azimuth)))
  let altFinal : ℤ := altFinalOf (cfg.deg altitude)
  if cfg.bodyPosture = some 0 ∨ cfg.bodyPosture = some 3 then
    cfg.splineStand azFinal altFinal
  else if cfg.bodyPosture = some 1 ∨ cfg.bodyPosture = some 4 ∨ cfg.bodyPosture = none then
    cfg.splineSit azFinal altFinal
  else
    cfg.splineStand azFinal (90 - altFinal)

/-- One iteration of the `nonParallelMRTCalc`/`MRTCalc` loop body, producing
the `(ERF, MRTDelta, solarAdjustedMRT)` triple appended for that hour. -/
def mrtHourLow (cfg : SimpleCfg) (skyViewFac altitude azimuth fBes diffRad dirNormRad
    winTransH baselineMRT : ℚ) : ℚ × ℚ × ℚ :=
  if 0 < altitude then
    if 0 < fBes then
      let globHorizRad := dirNormRad * cfg.sine altitude + diffRad
      let hourERF :=
        ((0.5 * fracEffOf cfg.bodyPosture * skyViewFac * (diffRad + globHorizRad * cfg.groundR)
            + fracEffOf cfg.bodyPosture * projAreaFacOf cfg azimuth altitude * fBes * dirNormRad)
          * winTransH) * (cfg.cloA / 0.95)
      let mrtDelt := hourERF / (fracEffOf cfg.bodyPosture * radTransCoeff)
      (hourERF, mrtDelt, mrtDelt + baselineMRT)
    else (0, 0, baselineMRT)
  else (0, 0, baselineMRT)

/-- The per-hour `fBes` of `mainSimple`: computed from the sun-ray blockage
flags when context geometry is present, and `1` otherwise. -/
def fBesSeriesOf (cfg : SimpleCfg) (sunBlocked : ℕ → List Bool) (count : ℕ) : ℚ :=
  if cfg.contextNonempty then fBesOf (sunBlocked count) else 1

/-- The run-level sky-view factor of `mainSimple`: `skyViewFacCode` over the
view-vector blockage flags when context geometry is present, else `1`. -/
def skyViewOf (cfg : SimpleCfg) (viewBlocked : List Bool) : ℚ :=
  if cfg.contextNonempty then skyViewFacCode viewBlocked else 1

/-- The `count`-th hour of the low-resolution path.  `hoys` is the list of
analysis hours; `diffSolarRad`, `dirSolarRad` and `winTrans` are the annual
series indexed by `hour - 1` as in the source; `radTempSel` is the
count-indexed baseline MRT selection. -/
def lowResHour (cfg : SimpleCfg) (viewBlocked : List Bool) (hoys : List ℕ)
    (alts azs : List ℚ) (sunBlocked : ℕ → List Bool)
    (diffSolarRad dirSolarRad winTrans : ℕ → ℚ) (radTempSel : ℕ → ℚ) (count : ℕ) :
    ℚ × ℚ × ℚ :=
  mrtHourLow cfg (skyViewOf cfg viewBlocked) (alts.getD count 0) (azs.getD count 0)
    (fBesSeriesOf cfg sunBlocked count)
    (diffSolarRad (hoys.getD count 0 - 1)) (dirSolarRad (hoys.getD count 0 - 1))
    (winTrans (hoys.getD count 0 - 1)) (radTempSel count)

/-- Sequential low-resolution path (`nonParallelMRTCalc`): the hours are
processed in order and the triples collected chronologically. -/
def lowResSeries (cfg : SimpleCfg) (viewBlocked : List Bool) (hoys : List ℕ)
    (alts azs : List ℚ) (sunBlocked : ℕ → List Bool)
    (diffSolarRad dirSolarRad winTrans : ℕ → ℚ) (radTempSel : ℕ → ℚ) :
    List (ℚ × ℚ × ℚ) :=
  (List.range hoys.length).map
    (lowResHour cfg viewBlocked hoys alts azs sunBlocked diffSolarRad dirSolarRad winTrans
      radTempSel)

/-- One `(sample point, sky patch)` entry of the precomputed intersection
matrix `intersectionMtx`: the `isIntersect` visibility flag and the stored
vector angle `vecAngle`. -/
structure PatchRec where
  isIntersect : Bool
  vecAngle : ℚ

/-- Run-level parameters of the high-resolution path (`main`).  `cosf`
models `math.cos`, applied to the stored vector angles. -/
structure HighCfg where
  bodyPosture : Option ℕ
  groundR : ℚ
  cloA : ℚ
  totalPersonArea : ℚ
  cosf : ℚ → ℚ

/-- The inner accumulation of `nonParallelRadCalc`/`radCalc` for one sample
point: starting from `radValue = 0`, add `skyMatrix[patchCount] *
math.cos(vecAngle)` for every patch whose `isIntersect` flag is set. -/
def radValueAtPoint (cosf : ℚ → ℚ) (skyMatrix : List ℚ) (recs : List PatchRec) : ℚ :=
  (skyMatrix.zip recs).foldl
    (fun radValue p =>
      if p.2.isIntersect then radValue + p.1 * cosf p.2.vecAngle else radValue) 0

/-- The radiant flux of one high-resolution hour: per-point radiation,
the body total over `personRad = radiationResult[:-1]` weighted by
`personMeshAreas`, window-transmissivity scaling of both the body total
and the ground sample when the hour's transmissivity is not `1`, the
ground-reflected term, and the division by the total person area. -/
def radFluxHigh (cfg : HighCfg) (intDict : List (List PatchRec))
    (personMeshAreas : List ℚ) (skyMatrix : List ℚ) (winTransH : ℚ) : ℚ :=
  let radiationResult := intDict.map (radValueAtPoint cfg.cosf skyMatrix)
  let personRad := radiationResult.dropLast
  let groundRad0 := (radiationResult.getLast?).getD 0
  let totalPersonBeamDiffRad0 := ((personRad.zip personMeshAreas).map fun p => p.1 * p.2).sum
  let groundRad := if winTransH ≠ 1 then groundRad0 * winTransH else groundRad0
  let totalPersonBeamDiffRad :=
    if winTransH ≠ 1 then totalPersonBeamDiffRad0 * winTransH else totalPersonBeamDiffRad0
  let groundRefRad := 0.5 * groundRad * fracEffOf cfg.bodyPosture * cfg.groundR
  (totalPersonBeamDiffRad + groundRefRad) / cfg.totalPersonArea

/-- One sun-up iteration of the `nonParallelRadCalc`/`radCalc` loop body: the
`(ERF, MRTDelta, solarAdjustedMRT)` triple for that hour.  The appended ERF
is `hourERF/1000` in the source. -/
def radHourHigh (cfg : HighCfg) (intDict : List (List PatchRec))
    (personMeshAreas : List ℚ) (skyMatrix : List ℚ) (winTransH baselineMRT : ℚ) :
    ℚ × ℚ × ℚ :=
  let radiantFlux := radFluxHigh cfg intDict personMeshAreas skyMatrix winTransH
  let hourERF := radiantFlux * cfg.cloA / 0.95
  let hourMRT := hourERF / (fracEffOf cfg.bodyPosture * radTransCoeff) + baselineMRT
  let mrtDelt := hourMRT - baselineMRT
  (hourERF / 1000, mrtDelt, hourMRT)

/-- The sun-up guard of `nonParallelRadCalc`/`radCalc`:
`lastVal = 1` unless `count` is the final index, and the test is
`altitudes[count] > 0 or altitudes[count-1] > 0 or altitudes[count+lastVal] > 0`,
where `altitudes[count-1]` at `count = 0` is Python's negative index `-1`,
the final element. -/
def highGuard (alts : List ℚ) (count : ℕ) : Bool :=
  let lastVal : ℕ := if count ≠ alts.length - 1 then 1 else 0
  decide (0 < alts.getD count 0)
    || decide (0 < alts.getD (if count = 0 then alts.length - 1 else count - 1) 0)
    || decide (0 < alts.getD (count + lastVal) 0)

/-- The `count`-th hour of the high-resolution path: either the full flux
model under the sun-up guard, or the zero-contribution triple
`(0, 0, radTemp[count])`. -/
def highResHour (cfg : HighCfg) (alts : List ℚ) (intDict : List (List PatchRec))
    (personMeshAreas : List ℚ) (skyMatrixOf : ℕ → List ℚ)
    (winTransSel radTempSel : ℕ → ℚ) (count : ℕ) : ℚ × ℚ × ℚ :=
  if highGuard alts count then
    radHourHigh cfg intDict personMeshAreas (skyMatrixOf count) (winTransSel count)
      (radTempSel count)
  else (0, 0, radTempSel count)

/-- Sequential high-resolution path (`nonParallelRadCalc`): the hours are
processed in order and the triples collected chronologically. -/
def highResSeries (cfg : HighCfg) (alts : List ℚ) (intDict : List (List PatchRec))
    (personMeshAreas : List ℚ) (skyMatrixOf : ℕ → List ℚ)
    (winTransSel radTempSel : ℕ → ℚ) : List (ℚ × ℚ × ℚ) :=
  (List.range alts.length).map
    (highResHour cfg alts intDict personMeshAreas skyMatrixOf winTransSel radTempSel)

/-- Key ordering on `(sequence index, result)` pairs used to restore
chronological order after a parallel run. -/
def keyLe {α : Type} (a b : ℕ × α) : Prop := a.1 ≤ b.1

instance {α : Type} : DecidableRel (keyLe (α := α)) :=
  fun a b => inferInstanceAs (Decidable (a.1 ≤ b.1))

instance {α : Type} : IsTotal (ℕ × α) keyLe :=
  ⟨fun a b => Nat.le_total a.1 b.1⟩

instance {α : Type} : IsTrans (ℕ × α) keyLe :=
  ⟨fun _ _ _ h1 h2 => Nat.le_trans h1 h2⟩

/-- The parallel dispatch-and-reorder scheme of `parallelRadCalc` and
`parallelMRTCalc`, with each per-hour task modelled as atomically appending
its `(count, result)` record in an arbitrary completion order `order`, after
which `sorted(zip(hourOrder, results))` restores chronological order and the
values are stripped back out. -/
def parMapSorted {α : Type} (order : List ℕ) (f : ℕ → α) : List α :=
  ((order.map fun i => (i, f i)).insertionSort keyLe).map Prod.snd

/-- Parallel low-resolution path (`parallelMRTCalc` plus the re-sorting in
`mainSimple`), parametrized by the completion order of the tasks. -/
def lowResSeriesPar (cfg : SimpleCfg) (viewBlocked : List Bool) (hoys : List ℕ)
    (alts azs : List ℚ) (sunBlocked : ℕ → List Bool)
    (diffSolarRad dirSolarRad winTrans : ℕ → ℚ) (radTempSel : ℕ → ℚ)
    (order : List ℕ) : List (ℚ × ℚ × ℚ) :=
  parMapSorted order
    (lowResHour cfg viewBlocked hoys alts azs sunBlocked diffSolarRad dirSolarRad winTrans
      radTempSel)

/-- Parallel high-resolution path (`parallelRadCalc` plus the re-sorting in
`main`), parametrized by the completion order of the tasks. -/
def highResSeriesPar (cfg : HighCfg) (alts : List ℚ) (intDict : List (List PatchRec))
    (personMeshAreas : List ℚ) (skyMatrixOf : ℕ → List ℚ)
    (winTransSel radTempSel : ℕ → ℚ) (order : List ℕ) : List (ℚ × ℚ × ℚ) :=
  parMapSorted order
    (highResHour cfg alts intDict personMeshAreas skyMatrixOf winTransSel radTempSel)

/-- The high-resolution flux as claim C2 words it: the ground-reflected
contribution formed from the raw (unscaled) ground sample radiation, and
only the body total scaled by the hour's window transmissivity. -/
def claimFluxHigh (cfg : HighCfg) (intDict : List (List PatchRec))
    (personMeshAreas : List ℚ) (skyMatrix : List ℚ) (winTransH : ℚ) : ℚ :=
  let radiationResult := intDict.map (radValueAtPoint cfg.cosf skyMatrix)
  let personRad := radiationResult.dropLast
  let groundRad := (radiationResult.getLast?).getD 0
  let bodyTotal := ((personRad.zip personMeshAreas).map fun p => p.1 * p.2).sum
  (bodyTotal * winTransH + 0.5 * groundRad * fracEffOf cfg.bodyPosture * cfg.groundR)
    / cfg.totalPersonArea

/-- The sun-up test as claim C6 words it: the hour itself and both immediate
neighbours with wraparound at both array boundaries. -/
def claimGuardWrap (alts : List ℚ) (count : ℕ) : Bool :=
  decide (0 < alts.getD count 0)
    || decide (0 < alts.getD ((count + alts.length - 1) % alts.length) 0)
    || decide (0 < alts.getD ((count + 1) % alts.length) 0)

/-- The sun-up test with the neighbour indices the code actually reaches:
the previous hour wraps from the first index to the last one, while the
hour after the last index degenerates to the last index itself. -/
def amendedGuard (alts : List ℚ) (count : ℕ) : Bool :=
  decide (0 < alts.getD count 0)
    || decide (0 < alts.getD ((count + alts.length - 1) % alts.length) 0)
    || decide (0 < alts.getD (min (count + 1) (alts.length - 1)) 0)

/-- A concrete intersection-matrix entry used by witnesses: one visible
patch stored with vector angle `0`. -/
def samplePatch : PatchRec := ⟨true, 0⟩

/-- A concrete two-sample intersection matrix (one body sample plus the
final ground sample) used by witnesses. -/
def sampleIntDict : List (List PatchRec) := [[samplePatch], [samplePatch]]

/-- A concrete high-resolution configuration used by witnesses; `cosf`
agrees with `math.cos` at the only stored angle `0`. -/
def sampleHighCfg : HighCfg :=
  { bodyPosture := none, groundR := 1/4, cloA := 7/10, totalPersonArea := 1,
    cosf := fun _ => 1 }

/-- A concrete low-resolution configuration used by witnesses. -/
def sampleSimpleCfg : SimpleCfg :=
  { bodyPosture := none, groundR := 1/4, cloA := 7/10, northAngle := 0,
    rotationAngle := 0, contextNonempty := false, sine := fun _ => 1/2,
    deg := fun x => x, splineStand := fun _ _ => 1/5, splineSit := fun _ _ => 1/5,
    azFuel := 8 }

/-- A concrete low-resolution configuration with context geometry present. -/
def sampleSimpleCfgCtx : SimpleCfg :=
  { sampleSimpleCfg with contextNonempty := true }

theorem getD_map_range {α : Type} {n count : ℕ} (f : ℕ → α) (d : α) (h : count < n) :
    ((List.range n).map f).getD count d = f count := by
  rw [List.getD_eq_getElem?_getD, List.getElem?_map, List.getElem?_range h]
  rfl

theorem radValueAtPoint_foldl (cosf : ℚ → ℚ) :
    ∀ (l : List (ℚ × PatchRec)) (acc : ℚ),
      l.foldl (fun radValue p =>
          if p.2.isIntersect then radValue + p.1 * cosf p.2.vecAngle else radValue) acc =
        acc + ((l.filter fun p => p.2.isIntersect).map
          fun p => p.1 * cosf p.2.vecAngle).sum := by
  intro l
  induction l with
  | nil => intro acc; simp
  | cons p t ih =>
    intro acc
    by_cases hp : p.2.isIntersect = true <;>
      simp [hp, ih, add_assoc]

/-- The per-point accumulation equals the sum of `patchRadiation × cos(vecAngle)`
over the patches flagged as intersecting. -/
theorem radValueAtPoint_eq (cosf : ℚ → ℚ) (skyMatrix : List ℚ) (recs : List PatchRec) :
    radValueAtPoint cosf skyMatrix recs =
      (((skyMatrix.zip recs).filter fun p => p.2.isIntersect).map
        fun p => p.1 * cosf p.2.vecAngle).sum := by
  rw [radValueAtPoint, radValueAtPoint_foldl, zero_add]

theorem parMapSorted_eq {α : Type} (n : ℕ) (f : ℕ → α) (order : List ℕ)
    (h : order.Perm (List.range n)) : parMapSorted order f = (List.range n).map f := by
  have hperm : ((order.map fun i => (i, f i)).insertionSort keyLe).Perm
      ((List.range n).map fun i => (i, f i)) :=
    (List.perm_insertionSort keyLe _).trans (h.map _)
  have hsortLe : List.Sorted keyLe ((order.map fun i => (i, f i)).insertionSort keyLe) :=
    List.sorted_insertionSort keyLe _
  have hkeys : (((order.map fun i => (i, f i)).insertionSort keyLe).map Prod.fst).Perm
      (List.range n) := by
    have h1 := hperm.map Prod.fst
    have h2 : (Prod.fst ∘ fun i : ℕ => (i, f i)) = id := rfl
    simpa [List.map_map, h2] using h1
  have hnodup : (((order.map fun i => (i, f i)).insertionSort keyLe).map Prod.fst).Nodup :=
    hkeys.nodup_iff.mpr (List.nodup_range n)
  have hne : ((order.map fun i => (i, f i)).insertionSort keyLe).Pairwise
      (fun a b => a.1 ≠ b.1) := List.pairwise_map.mp hnodup
  have hsortLt : ((order.map fun i => (i, f i)).insertionSort keyLe).Pairwise
      (fun a b : ℕ × α => a.1 < b.1) :=
    (hsortLe.and hne).imp fun hab => lt_of_le_of_ne hab.1 hab.2
  have htargetSort : ((List.range n).map fun i => (i, f i)).Pairwise
      (fun a b : ℕ × α => a.1 < b.1) := by
    rw [List.pairwise_map]
    exact List.pairwise_lt_range n
  haveI : IsAntisymm (ℕ × α) (fun a b : ℕ × α => a.1 < b.1) :=
    ⟨fun a b h1 h2 => absurd (h1.trans h2) (lt_irrefl _)⟩
  have heq := List.eq_of_perm_of_sorted hperm hsortLt htargetSort
  rw [parMapSorted, heq, List.map_map]
  rfl

theorem azLoopDown_of_le (n : ℕ) (x : ℚ) (h : ¬ 180 < x) : azLoopDown n x = x := by
  cases n <;> simp [azLoopDown, h]

theorem azLoopUp_of_nonneg (n : ℕ) (x : ℚ) (h : ¬ x < 0) : azLoopUp n x = x := by
  cases n <;> simp [azLoopUp, h]

theorem azLoopDown_bound :
    ∀ (n : ℕ) (x : ℚ), x ≤ 180 + 180 * n → 180 < x →
      0 < azLoopDown n x ∧ azLoopDown n x ≤ 180
  | 0, x, hb, hx => by
    simp only [Nat.cast_zero, mul_zero, add_zero] at hb
    exact absurd hx (not_lt.mpr hb)
  | n + 1, x, hb, hx => by
    rw [azLoopDown, if_pos hx]
    by_cases h2 : 180 < x - 180
    · refine azLoopDown_bound n (x - 180) ?_ h2
      push_cast at hb ⊢
      linarith
    · rw [azLoopDown_of_le n _ h2]
      exact ⟨by linarith, by linarith [not_lt.mp h2]⟩

theorem azLoopUp_bound :
    ∀ (n : ℕ) (x : ℚ), -(180 * n) ≤ x → x < 0 →
      0 ≤ azLoopUp n x ∧ azLoopUp n x < 180
  | 0, x, hb, hx => by
    simp only [Nat.cast_zero, mul_zero, neg_zero] at hb
    exact absurd hx (not_lt.mpr hb)
  | n + 1, x, hb, hx => by
    rw [azLoopUp, if_pos hx]
    by_cases h2 : x + 180 < 0
    · refine azLoopUp_bound n (x + 180) ?_ h2
      push_cast at hb ⊢
      linarith
    · rw [azLoopUp_of_nonneg n _ h2]
      exact ⟨by linarith [not_lt.mp h2], by linarith⟩

theorem azLoopDown_stable :
    ∀ (n m : ℕ) (x : ℚ), x ≤ 180 + 180 * n → n ≤ m → azLoopDown m x = azLoopDown n x
  | 0, m, x, hb, _ => by
    simp only [Nat.cast_zero, mul_zero, add_zero] at hb
    rw [azLoopDown_of_le m x (not_lt.mpr hb), azLoopDown]
  | n + 1, m, x, hb, hnm => by
    obtain ⟨m', rfl⟩ := Nat.exists_eq_add_of_le hnm
    by_cases hx : 180 < x
    · rw [show n + 1 + m' = (n + m') + 1 from by omega, azLoopDown, if_pos hx, azLoopDown, if_pos hx]
      refine azLoopDown_stable n (n + m') (x - 180) ?_ (Nat.le_add_right n m')
      push_cast at hb ⊢
      linarith
    · rw [azLoopDown_of_le _ x hx, azLoopDown_of_le _ x hx]

theorem azLoopUp_stable :
    ∀ (n m : ℕ) (x : ℚ), -(180 * n) ≤ x → n ≤ m → azLoopUp m x = azLoopUp n x
  | 0, m, x, hb, _ => by
    simp only [Nat.cast_zero, mul_zero, neg_zero] at hb
    rw [azLoopUp_of_nonneg m x (not_lt.mpr hb), azLoopUp]
  | n + 1, m, x, hb, hnm => by
    obtain ⟨m', rfl⟩ := Nat.exists_eq_add_of_le hnm
    by_cases hx : x < 0
    · rw [show n + 1 + m' = (n + m') + 1 from by omega, azLoopUp, if_pos hx, azLoopUp, if_pos hx]
      refine azLoopUp_stable n (n + m') (x + 180) ?_ (Nat.le_add_right n m')
      push_cast at hb ⊢
      linarith
    · rw [azLoopUp_of_nonneg _ x hx, azLoopUp_of_nonneg _ x hx]

theorem prevIdx_eq (n count : ℕ) (h : count < n) :
    (count + n - 1) % n = if count = 0 then n - 1 else count - 1 := by
  rcases Nat.eq_zero_or_pos count with hc | hc
  · subst hc
    rw [if_pos rfl, Nat.zero_add]
    exact Nat.mod_eq_of_lt (by omega)
  · rw [if_neg (by omega), show count + n - 1 = (count - 1) + n from by omega,
      Nat.add_mod_right]
    exact Nat.mod_eq_of_lt (by omega)

theorem highGuard_eq_amended (alts : List ℚ) (count : ℕ) (h : count < alts.length) :
    highGuard alts count = amendedGuard alts count := by
  have hp := prevIdx_eq alts.length count h
  have hn : min (count + 1) (alts.length - 1)
      = count + (if count ≠ alts.length - 1 then 1 else 0) := by
    by_cases hl : count = alts.length - 1
    · rw [if_neg (by simpa using hl)]
      omega
    · rw [if_pos hl]
      omega
  simp only [highGuard, amendedGuard, hp, hn]

theorem highRes_mrt_minus_delta (cfg : HighCfg) (alts : List ℚ)
    (intDict : List (List PatchRec)) (areas : List ℚ) (skyOf : ℕ → List ℚ)
    (winSel radSel : ℕ → ℚ) :
    ((highResSeries cfg alts intDict areas skyOf winSel radSel).map fun t => t.2.2 - t.2.1)
      = (List.range alts.length).map radSel := by
  rw [highResSeries, List.map_map]
  refine List.map_congr_left fun count _ => ?_
  simp only [Function.comp, highResHour]
  split
  · simp only [radHourHigh]
    ring
  · simp

theorem lowRes_mrt_minus_delta (cfg : SimpleCfg) (viewBlocked : List Bool) (hoys : List ℕ)
    (alts azs : List ℚ) (sunBlocked : ℕ → List Bool) (diffA dirA winA radSel : ℕ → ℚ) :
    ((lowResSeries cfg viewBlocked hoys alts azs sunBlocked diffA dirA winA radSel).map
        fun t => t.2.2 - t.2.1)
      = (List.range hoys.length).map radSel := by
  rw [lowResSeries, List.map_map]
  refine List.map_congr_left fun count _ => ?_
  simp only [Function.comp, lowResHour, mrtHourLow]
  split
  · split
    · ring
    · simp
  · simp

theorem highRes_delta_of_erf (cfg : HighCfg) (alts : List ℚ)
    (intDict : List (List PatchRec)) (areas : List ℚ) (skyOf : ℕ → List ℚ)
    (winSel radSel : ℕ → ℚ) :
    ((highResSeries cfg alts intDict areas skyOf winSel radSel).map fun t => t.2.1)
      = (highResSeries cfg alts intDict areas skyOf winSel radSel).map
          fun t => 1000 * t.1 / (fracEffOf cfg.bodyPosture * radTransCoeff) := by
  rw [highResSeries, List.map_map, List.map_map]
  refine List.map_congr_left fun count _ => ?_
  simp only [Function.comp, highResHour]
  split
  · simp only [radHourHigh]
    ring
  · norm_num

theorem lowRes_delta_of_erf (cfg : SimpleCfg) (viewBlocked : List Bool) (hoys : List ℕ)
    (alts azs : List ℚ) (sunBlocked : ℕ → List Bool) (diffA dirA winA radSel : ℕ → ℚ) :
    ((lowResSeries cfg viewBlocked hoys alts azs sunBlocked diffA dirA winA radSel).map
        fun t => t.2.1)
      = (lowResSeries cfg viewBlocked hoys alts azs sunBlocked diffA dirA winA radSel).map
          fun t => t.1 / (fracEffOf cfg.bodyPosture * radTransCoeff) := by
  rw [lowResSeries, List.map_map, List.map_map]
  refine List.map_congr_left fun count _ => ?_
  simp only [Function.comp, lowResHour, mrtHourLow]
  split
  · split
    · simp
    · norm_num
  · norm_num

theorem pyInt_range_bounds {x : ℚ} (h0 : 0 ≤ x) (h180 : x ≤ 180) :
    0 ≤ pyInt x ∧ pyInt x ≤ 180 := by
  rw [pyInt, if_pos h0]
  refine ⟨Int.floor_nonneg.mpr h0, ?_⟩
  have h := Int.floor_le_floor (α := ℚ) h180
  simpa using h

theorem normalizeAz_spec (x : ℚ) :
    ∃ fuel : ℕ, (∀ m, fuel ≤ m → normalizeAz m x = normalizeAz fuel x)
      ∧ 0 ≤ normalizeAz fuel x ∧ normalizeAz fuel x ≤ 180 := by
  refine ⟨⌈|x|⌉₊, ?_, ?_⟩
  have hxf : |x| ≤ (⌈|x|⌉₊ : ℚ) := Nat.le_ceil _
  have hff : ((⌈|x|⌉₊ : ℕ) : ℚ) ≤ 180 * (⌈|x|⌉₊ : ℕ) := by
    have h0 : (0 : ℚ) ≤ ((⌈|x|⌉₊ : ℕ) : ℚ) := Nat.cast_nonneg _
    linarith
  have hup : x ≤ 180 + 180 * (⌈|x|⌉₊ : ℕ) := by
    have := le_abs_self x
    linarith
  have hdown : -(180 * ((⌈|x|⌉₊ : ℕ) : ℚ)) ≤ x := by
    have := neg_abs_le x
    linarith
  · intro m hm
    unfold normalizeAz
    split
    · exact azLoopDown_stable _ m x hup hm
    · split
      · exact azLoopUp_stable _ m x hdown hm
      · rfl
  · have hxf : |x| ≤ (⌈|x|⌉₊ : ℚ) := Nat.le_ceil _
    have hff : ((⌈|x|⌉₊ : ℕ) : ℚ) ≤ 180 * (⌈|x|⌉₊ : ℕ) := by
      have h0 : (0 : ℚ) ≤ ((⌈|x|⌉₊ : ℕ) : ℚ) := Nat.cast_nonneg _
      linarith
    have hup : x ≤ 180 + 180 * (⌈|x|⌉₊ : ℕ) := by
      have := le_abs_self x
      linarith
    have hdown : -(180 * ((⌈|x|⌉₊ : ℕ) : ℚ)) ≤ x := by
      have := neg_abs_le x
      linarith
    unfold normalizeAz
    split
    · rename_i hgt
      have h := azLoopDown_bound _ x hup hgt
      exact ⟨le_of_lt h.1, h.2⟩
    · split
      · rename_i hlt
        have h := azLoopUp_bound _ x hdown hlt
        exact ⟨h.1, le_of_lt h.2⟩
      · rename_i hgt hlt
        exact ⟨le_of_not_lt hlt, le_of_not_lt hgt⟩

/-- C1: in the low-resolution path, for every sun-up hour (solar altitude
above 0) whose direct-sun visibility value `fBes` is positive, the ERF
output equals `((0.5 × fracEff × skyViewFactor × (diffuseHorizontal +
(directNormal × sin(altitude) + diffuseHorizontal) × groundReflectivity)) +
(fracEff × projectedAreaFactor × fBes × directNormal)) ×
windowTransmissivity(hour) × (clothingAbsorptivity / 0.95)`. -/
theorem erf_formula_lowres (cfg : SimpleCfg) (viewBlocked : List Bool) (hoys : List ℕ)
    (alts azs : List ℚ) (sunBlocked : ℕ → List Bool) (diffA dirA winA radSel : ℕ → ℚ)
    (count : ℕ) (hc : count < hoys.length)
    (halt : 0 < alts.getD count 0)
    (hf : 0 < fBesSeriesOf cfg sunBlocked count) :
    ((lowResSeries cfg viewBlocked hoys alts azs sunBlocked diffA dirA winA radSel).getD
        count (0, 0, 0)).1 =
      ((0.5 * fracEffOf cfg.bodyPosture * skyViewOf cfg viewBlocked
            * (diffA (hoys.getD count 0 - 1)
                + (dirA (hoys.getD count 0 - 1) * cfg.sine (alts.getD count 0)
                    + diffA (hoys.getD count 0 - 1)) * cfg.groundR))
          + (fracEffOf cfg.bodyPosture * projAreaFacOf cfg (azs.getD count 0) (alts.getD count 0)
              * fBesSeriesOf cfg sunBlocked count * dirA (hoys.getD count 0 - 1)))
        * winA (hoys.getD count 0 - 1) * (cfg.cloA / 0.95) := by
  rw [lowResSeries, getD_map_range _ _ hc, lowResHour, mrtHourLow, if_pos halt, if_pos hf]

theorem erf_formula_lowres_witness :
    ((0 : ℕ) < ([10] : List ℕ).length
      ∧ (0 : ℚ) < ([(1 : ℚ)] : List ℚ).getD 0 0
      ∧ (0 : ℚ) < fBesSeriesOf sampleSimpleCfg (fun _ => []) 0)
    ∧ ((lowResSeries sampleSimpleCfg [] [10] [1] [0] (fun _ => []) (fun _ => 2) (fun _ => 3)
          (fun _ => 1) (fun _ => 20)).getD 0 (0, 0, 0)).1 =
        ((0.5 * fracEffOf sampleSimpleCfg.bodyPosture * skyViewOf sampleSimpleCfg []
              * ((fun _ : ℕ => (2 : ℚ)) (([10] : List ℕ).getD 0 0 - 1)
                  + ((fun _ : ℕ => (3 : ℚ)) (([10] : List ℕ).getD 0 0 - 1)
                      * sampleSimpleCfg.sine (([(1 : ℚ)] : List ℚ).getD 0 0)
                      + (fun _ : ℕ => (2 : ℚ)) (([10] : List ℕ).getD 0 0 - 1))
                    * sampleSimpleCfg.groundR))
            + (fracEffOf sampleSimpleCfg.bodyPosture
                * projAreaFacOf sampleSimpleCfg (([(0 : ℚ)] : List ℚ).getD 0 0)
                    (([(1 : ℚ)] : List ℚ).getD 0 0)
                * fBesSeriesOf sampleSimpleCfg (fun _ => []) 0
                * (fun _ : ℕ => (3 : ℚ)) (([10] : List ℕ).getD 0 0 - 1)))
          * (fun _ : ℕ => (1 : ℚ)) (([10] : List ℕ).getD 0 0 - 1)
          * (sampleSimpleCfg.cloA / 0.95) :=
  ⟨⟨by decide, by decide, by decide⟩,
    erf_formula_lowres sampleSimpleCfg [] [10] [1] [0] (fun _ => []) (fun _ => 2) (fun _ => 3)
      (fun _ => 1) (fun _ => 20) 0 (by decide) (by decide) (by decide)⟩

/-- C2 counterexample: with a window transmissivity of 1/2 and non-zero
ground radiation, the code's flux differs from the claim's flux, in which
the ground-reflected term is built from the unscaled ground radiation. -/
theorem flux_highres_counterexample :
    radFluxHigh sampleHighCfg sampleIntDict [1] [1] (1 / 2)
      ≠ claimFluxHigh sampleHighCfg sampleIntDict [1] [1] (1 / 2) := by
  have h1 : radFluxHigh sampleHighCfg sampleIntDict [1] [1] (1 / 2) = 1087 / 2000 := by
    simp [radFluxHigh, radValueAtPoint, sampleHighCfg, sampleIntDict, samplePatch, fracEffOf,
      List.zip, List.zipWith, List.dropLast, List.getLast?]
    norm_num
  have h2 : claimFluxHigh sampleHighCfg sampleIntDict [1] [1] (1 / 2) = 587 / 1000 := by
    simp [claimFluxHigh, radValueAtPoint, sampleHighCfg, sampleIntDict, samplePatch, fracEffOf,
      List.zip, List.zipWith, List.dropLast, List.getLast?]
    norm_num
  rw [h1, h2]
  norm_num

/-- C2 (amended): each point's radiation is the sum of `patchRadiation ×
cos(storedVectorAngle)` over patches flagged as intersecting, and the flux
equals `(winTrans × bodyTotal + 0.5 × (winTrans × groundRadiation) ×
fracEff × groundReflectivity) / totalPersonArea`: the ground sample's
radiation is also window-transmissivity-scaled before the 0.5 ×
ground-reflected term is formed. -/
theorem flux_highres_amended (cfg : HighCfg) (intDict : List (List PatchRec))
    (areas skyMatrix : List ℚ) (w : ℚ) :
    (∀ recs, radValueAtPoint cfg.cosf skyMatrix recs =
        (((skyMatrix.zip recs).filter fun p => p.2.isIntersect).map
          fun p => p.1 * cfg.cosf p.2.vecAngle).sum)
    ∧ radFluxHigh cfg intDict areas skyMatrix w =
        (w * ((((intDict.map (radValueAtPoint cfg.cosf skyMatrix)).dropLast.zip areas).map
              fun p => p.1 * p.2).sum)
          + 0.5 * (w * (((intDict.map (radValueAtPoint cfg.cosf skyMatrix)).getLast?).getD 0))
              * fracEffOf cfg.bodyPosture * cfg.groundR)
          / cfg.totalPersonArea := by
  constructor
  · intro recs
    exact radValueAtPoint_eq cfg.cosf skyMatrix recs
  · simp only [radFluxHigh]
    split_ifs with hw
    · ring
    · push_neg at hw
      rw [hw]
      ring

/-- C3 counterexample: in the high-resolution path the reported ERF is the
internal hourly ERF divided by 1000, so the reported MRT delta is not the
reported ERF divided by `fracEff × 6.012`. -/
theorem mrt_delta_counterexample :
    ¬ (((highResSeries sampleHighCfg [1] sampleIntDict [1] (fun _ => [1]) (fun _ => 1)
          (fun _ => 0)).map fun t => t.2.1)
        = (highResSeries sampleHighCfg [1] sampleIntDict [1] (fun _ => [1]) (fun _ => 1)
            (fun _ => 0)).map
            fun t => t.1 / (fracEffOf sampleHighCfg.bodyPosture * radTransCoeff)) := by
  simp [highResSeries, highResHour, highGuard, radHourHigh, radFluxHigh, radValueAtPoint,
    sampleHighCfg, sampleIntDict, samplePatch, fracEffOf, radTransCoeff, List.range_succ,
    List.range_zero, List.zip, List.zipWith, List.dropLast, List.getLast?]
  norm_num

/-- C3 (amended): `fracEff` is 0.725 standing, 0.696 seated or default,
0.68 lying; in the low-resolution path the reported MRT delta equals the
reported ERF divided by `fracEff × 6.012`, while in the high-resolution
path the reported ERF is additionally divided by 1000, so the delta equals
`1000 × reported ERF / (fracEff × 6.012)`; in both paths the reported
solar-adjusted MRT equals the delta plus the hour's baseline MRT. -/
theorem mrt_delta_amended :
    (fracEffOf (some 0) = 0.725 ∧ fracEffOf (some 3) = 0.725
      ∧ fracEffOf (some 1) = 0.696 ∧ fracEffOf (some 4) = 0.696 ∧ fracEffOf none = 0.696
      ∧ fracEffOf (some 2) = 0.68 ∧ fracEffOf (some 5) = 0.68)
    ∧ (∀ (cfg : HighCfg) (alts : List ℚ) (intDict : List (List PatchRec)) (areas : List ℚ)
        (skyOf : ℕ → List ℚ) (winSel radSel : ℕ → ℚ),
        ((highResSeries cfg alts intDict areas skyOf winSel radSel).map fun t => t.2.1)
          = (highResSeries cfg alts intDict areas skyOf winSel radSel).map
              (fun t => 1000 * t.1 / (fracEffOf cfg.bodyPosture * radTransCoeff))
        ∧ ((highResSeries cfg alts intDict areas skyOf winSel radSel).map
              fun t => t.2.2 - t.2.1)
            = (List.range alts.length).map radSel)
    ∧ (∀ (cfg : SimpleCfg) (viewBlocked : List Bool) (hoys : List ℕ) (alts azs : List ℚ)
        (sunBlocked : ℕ → List Bool) (diffA dirA winA radSel : ℕ → ℚ),
        ((lowResSeries cfg viewBlocked hoys alts azs sunBlocked diffA dirA winA radSel).map
            fun t => t.2.1)
          = (lowResSeries cfg viewBlocked hoys alts azs sunBlocked diffA dirA winA radSel).map
              (fun t => t.1 / (fracEffOf cfg.bodyPosture * radTransCoeff))
        ∧ ((lowResSeries cfg viewBlocked hoys alts azs sunBlocked diffA dirA winA radSel).map
              fun t => t.2.2 - t.2.1)
            = (List.range hoys.length).map radSel) :=
  ⟨by simp [fracEffOf],
    fun cfg alts intDict areas skyOf winSel radSel =>
      ⟨highRes_delta_of_erf cfg alts intDict areas skyOf winSel radSel,
        highRes_mrt_minus_delta cfg alts intDict areas skyOf winSel radSel⟩,
    fun cfg viewBlocked hoys alts azs sunBlocked diffA dirA winA radSel =>
      ⟨lowRes_delta_of_erf cfg viewBlocked hoys alts azs sunBlocked diffA dirA winA radSel,
        lowRes_mrt_minus_delta cfg viewBlocked hoys alts azs sunBlocked diffA dirA winA radSel⟩⟩

/-- C4: for every analysis hour whose solar altitude is at most 0 and whose
previous and next hours (with wraparound) also have altitudes at most 0,
the outputs are `ERF = 0`, `MRTDelta = 0` and `solarAdjustedMRT = baseline`,
in both the high-resolution and low-resolution paths. -/
theorem night_hour_zero (cfgH : HighCfg) (cfgL : SimpleCfg) (alts : List ℚ)
    (intDict : List (List PatchRec)) (areas : List ℚ) (skyOf : ℕ → List ℚ)
    (winSel radSel : ℕ → ℚ) (viewBlocked : List Bool) (hoys : List ℕ) (azs : List ℚ)
    (sunBlocked : ℕ → List Bool) (diffA dirA winA : ℕ → ℚ) (count : ℕ)
    (hc : count < alts.length)
    (hcur : alts.getD count 0 ≤ 0)
    (hprev : alts.getD ((count + alts.length - 1) % alts.length) 0 ≤ 0)
    (hnext : alts.getD ((count + 1) % alts.length) 0 ≤ 0) :
    (highResSeries cfgH alts intDict areas skyOf winSel radSel).getD count (1, 1, 1)
        = (0, 0, radSel count)
    ∧ (hoys.length = alts.length →
        (lowResSeries cfgL viewBlocked hoys alts azs sunBlocked diffA dirA winA radSel).getD
            count (1, 1, 1) = (0, 0, radSel count)) := by
  have hg : amendedGuard alts count = false := by
    simp only [amendedGuard, Bool.or_eq_false_iff, decide_eq_false_iff_not, not_lt]
    refine ⟨⟨hcur, hprev⟩, ?_⟩
    by_cases hl : count = alts.length - 1
    · rw [show min (count + 1) (alts.length - 1) = count from by omega]
      exact hcur
    · rw [show min (count + 1) (alts.length - 1) = (count + 1) % alts.length from by
        rw [Nat.mod_eq_of_lt (by omega)]
        omega]
      exact hnext
  constructor
  · rw [highResSeries, getD_map_range _ _ hc, highResHour, highGuard_eq_amended alts count hc,
      hg]
    simp
  · intro hlen
    rw [lowResSeries, getD_map_range _ _ (by omega : count < hoys.length), lowResHour,
      mrtHourLow, if_neg (not_lt.mpr hcur)]

theorem night_hour_zero_witness :
    ((0 : ℕ) < [(-1 : ℚ)].length ∧ ([(-1 : ℚ)]).getD 0 0 ≤ 0)
    ∧ (highResSeries sampleHighCfg [(-1 : ℚ)] sampleIntDict [1] (fun _ => [1]) (fun _ => 1)
        (fun _ => 20)).getD 0 (1, 1, 1) = (0, 0, 20) :=
  ⟨⟨by decide, by decide⟩,
    (night_hour_zero sampleHighCfg sampleSimpleCfg [(-1 : ℚ)] sampleIntDict [1] (fun _ => [1])
      (fun _ => 1) (fun _ => 20) [] [5] [0] (fun _ => []) (fun _ => 0) (fun _ => 0)
      (fun _ => 1) 0 (by decide) (by decide) (by decide) (by decide)).1⟩

/-- C5 (code bug): the fBes and sky-view computations use Python 2 integer
floor division on `sum/len`, so they can only produce 0 or 1.  With 4 of 9
body points blocked, the code's fBes is `5 // 9 = 0` instead of the
fraction `5/9` that the claim and the code's own comments state, and the
partially sunlit hour is then zeroed out; with 40 of 145 view vectors
blocked, the code's sky-view factor is `1 - 40 // 145 = 1` instead of
`105/145 = 21/29`. -/
theorem visibility_fraction_bug :
    fBesOf [true, true, true, true, false, false, false, false, false] = 0
    ∧ fBesFraction [true, true, true, true, false, false, false, false, false] = 5 / 9
    ∧ (0 : ℚ) ≠ 5 / 9
    ∧ skyViewFacCode (List.replicate 40 true ++ List.replicate 105 false) = 1
    ∧ skyViewFraction (List.replicate 40 true ++ List.replicate 105 false) = 21 / 29
    ∧ (1 : ℚ) ≠ 21 / 29
    ∧ mrtHourLow sampleSimpleCfgCtx 1 1 0
        (fBesOf [true, true, true, true, false, false, false, false, false]) 2 3 1 20
        = (0, 0, 20) := by
  refine ⟨by simp [fBesOf], ?_, by norm_num, by simp [skyViewFacCode], ?_, by norm_num, ?_⟩
  · simp [fBesFraction]
    norm_num
  · simp [skyViewFraction]
    norm_num
  · rw [show fBesOf [true, true, true, true, false, false, false, false, false] = 0 from by
      simp [fBesOf]]
    norm_num [mrtHourLow]

/-- C6 counterexample: with the altitude series `[1, -1, -1]`, at the final
hour (index 2) the wraparound rule of the claim examines the first hour,
whose altitude is positive, so the claim says the hour is not
short-circuited; the code instead re-examines the final hour itself,
short-circuits, and reports the zero triple although the flux model there
is non-zero. -/
theorem sunup_guard_counterexample :
    highGuard [(1 : ℚ), -1, -1] 2 = false
    ∧ claimGuardWrap [(1 : ℚ), -1, -1] 2 = true
    ∧ (highResSeries sampleHighCfg [(1 : ℚ), -1, -1] sampleIntDict [1] (fun _ => [1])
        (fun _ => 1) (fun _ => 0)).getD 2 (9, 9, 9) = (0, 0, 0)
    ∧ radHourHigh sampleHighCfg sampleIntDict [1] [1] 1 0 ≠ (0, 0, 0) := by
  refine ⟨by decide, by decide, ?_, ?_⟩
  · rw [highResSeries, getD_map_range _ _ (by norm_num), highResHour,
      show highGuard [(1 : ℚ), -1, -1] 2 = false from by decide]
    simp
  · simp [radHourHigh, radFluxHigh, radValueAtPoint, sampleHighCfg, sampleIntDict, samplePatch,
      fracEffOf, radTransCoeff, List.zip, List.zipWith, List.dropLast, List.getLast?,
      Prod.ext_iff]
    norm_num

/-- C6 (amended): the sun-up test examines the hour itself, the previous
hour with wraparound at the start boundary, and the next hour clamped at
the end boundary (at the final index the third test re-examines the final
hour itself, not the first hour); only when all examined altitudes are at
most 0 is the hour short-circuited to the zero-contribution triple,
otherwise the flux model is evaluated. -/
theorem sunup_guard_amended (cfg : HighCfg) (alts : List ℚ)
    (intDict : List (List PatchRec)) (areas : List ℚ) (skyOf : ℕ → List ℚ)
    (winSel radSel : ℕ → ℚ) (count : ℕ) (hc : count < alts.length) :
    highGuard alts count = amendedGuard alts count
    ∧ (amendedGuard alts count = false →
        (highResSeries cfg alts intDict areas skyOf winSel radSel).getD count (1, 1, 1)
          = (0, 0, radSel count))
    ∧ (amendedGuard alts count = true →
        (highResSeries cfg alts intDict areas skyOf winSel radSel).getD count (1, 1, 1)
          = radHourHigh cfg intDict areas (skyOf count) (winSel count) (radSel count)) := by
  refine ⟨highGuard_eq_amended alts count hc, ?_, ?_⟩
  · intro hfalse
    rw [highResSeries, getD_map_range _ _ hc, highResHour, highGuard_eq_amended alts count hc,
      hfalse]
    simp
  · intro htrue
    rw [highResSeries, getD_map_range _ _ hc, highResHour, highGuard_eq_amended alts count hc,
      htrue]
    simp

theorem sunup_guard_amended_witness :
    ((2 : ℕ) < [(1 : ℚ), -1, -1].length)
    ∧ highGuard [(1 : ℚ), -1, -1] 2 = amendedGuard [(1 : ℚ), -1, -1] 2 :=
  ⟨by decide,
    (sunup_guard_amended sampleHighCfg [(1 : ℚ), -1, -1] sampleIntDict [1] (fun _ => [1])
      (fun _ => 1) (fun _ => 0) 2 (by decide)).1⟩

/-- C7: on identical inputs, the sequential path and the parallel path
(modelled as atomic per-hour tasks completing in an arbitrary order and
re-sorted by their recorded sequence indices) produce identical ordered
`(ERF, MRTDelta, solarAdjustedMRT)` series, in both the high-resolution
and the low-resolution methods. -/
theorem parallel_matches_sequential (cfgH : HighCfg) (alts : List ℚ)
    (intDict : List (List PatchRec)) (areas : List ℚ) (skyOf : ℕ → List ℚ)
    (winSel radSel : ℕ → ℚ) (cfgL : SimpleCfg) (viewBlocked : List Bool) (hoys : List ℕ)
    (altsL azs : List ℚ) (sunBlocked : ℕ → List Bool) (diffA dirA winA radSelL : ℕ → ℚ)
    (orderH orderL : List ℕ)
    (hH : orderH.Perm (List.range alts.length))
    (hL : orderL.Perm (List.range hoys.length)) :
    highResSeriesPar cfgH alts intDict areas skyOf winSel radSel orderH
        = highResSeries cfgH alts intDict areas skyOf winSel radSel
    ∧ lowResSeriesPar cfgL viewBlocked hoys altsL azs sunBlocked diffA dirA winA radSelL orderL
        = lowResSeries cfgL viewBlocked hoys altsL azs sunBlocked diffA dirA winA radSelL :=
  ⟨parMapSorted_eq _ _ _ hH, parMapSorted_eq _ _ _ hL⟩

theorem parallel_matches_sequential_witness :
    ([1, 0] : List ℕ).Perm (List.range [(1 : ℚ), -1].length)
    ∧ highResSeriesPar sampleHighCfg [(1 : ℚ), -1] sampleIntDict [1] (fun _ => [1])
        (fun _ => 1) (fun _ => 0) [1, 0]
        = highResSeries sampleHighCfg [(1 : ℚ), -1] sampleIntDict [1] (fun _ => [1])
            (fun _ => 1) (fun _ => 0)
    ∧ lowResSeriesPar sampleSimpleCfg [] [10, 20] [(1 : ℚ), -1] [0, 0] (fun _ => [])
        (fun _ => 2) (fun _ => 3) (fun _ => 1) (fun _ => 20) [1, 0]
        = lowResSeries sampleSimpleCfg [] [10, 20] [(1 : ℚ), -1] [0, 0] (fun _ => [])
            (fun _ => 2) (fun _ => 3) (fun _ => 1) (fun _ => 20) :=
  ⟨by decide,
    (parallel_matches_sequential sampleHighCfg [(1 : ℚ), -1] sampleIntDict [1] (fun _ => [1])
      (fun _ => 1) (fun _ => 0) sampleSimpleCfg [] [10, 20] [(1 : ℚ), -1] [0, 0] (fun _ => [])
      (fun _ => 2) (fun _ => 3) (fun _ => 1) (fun _ => 20) [1, 0] [1, 0]
      (by decide) (by decide)).1,
    (parallel_matches_sequential sampleHighCfg [(1 : ℚ), -1] sampleIntDict [1] (fun _ => [1])
      (fun _ => 1) (fun _ => 0) sampleSimpleCfg [] [10, 20] [(1 : ℚ), -1] [0, 0] (fun _ => [])
      (fun _ => 2) (fun _ => 3) (fun _ => 1) (fun _ => 20) [1, 0] [1, 0]
      (by decide) (by decide)).2⟩

/-- C8: for every output hour in both paths the reported solar-adjusted MRT
minus the reported MRT delta is exactly the baseline MRT supplied for that
hour. -/
theorem mrt_minus_delta_is_baseline :
    (∀ (cfg : HighCfg) (alts : List ℚ) (intDict : List (List PatchRec)) (areas : List ℚ)
        (skyOf : ℕ → List ℚ) (winSel radSel : ℕ → ℚ),
        ((highResSeries cfg alts intDict areas skyOf winSel radSel).map
            fun t => t.2.2 - t.2.1)
          = (List.range alts.length).map radSel)
    ∧ (∀ (cfg : SimpleCfg) (viewBlocked : List Bool) (hoys : List ℕ) (alts azs : List ℚ)
        (sunBlocked : ℕ → List Bool) (diffA dirA winA radSel : ℕ → ℚ),
        ((lowResSeries cfg viewBlocked hoys alts azs sunBlocked diffA dirA winA radSel).map
            fun t => t.2.2 - t.2.1)
          = (List.range hoys.length).map radSel) :=
  ⟨highRes_mrt_minus_delta, lowRes_mrt_minus_delta⟩

/-- C9: input validation accepts a ground reflectivity or clothing
absorptivity exactly when it lies strictly between 0 and 1; the boundary
values 0 and 1 are rejected, 0.5 is accepted, and a failed check forces
the aggregate `checkData` to `False` so the run does not proceed. -/
theorem reflectivity_bounds_check :
    (∀ x : ℚ, (acceptGroundReflectivity x = true ↔ 0 < x ∧ x < 1)
      ∧ (acceptClothingAbsorptivity x = true ↔ 0 < x ∧ x < 1))
    ∧ acceptGroundReflectivity 0 = false ∧ acceptGroundReflectivity 1 = false
    ∧ acceptClothingAbsorptivity 0 = false ∧ acceptClothingAbsorptivity 1 = false
    ∧ acceptGroundReflectivity (1 / 2) = true ∧ acceptClothingAbsorptivity (1 / 2) = true
    ∧ (∀ c1 c2 c3 c5 c6 c7 c8 c9 : Bool, overallCheck c1 c2 c3 false c5 c6 c7 c8 c9 = false)
    ∧ (∀ c1 c2 c3 c4 c6 c7 c8 c9 : Bool, overallCheck c1 c2 c3 c4 false c6 c7 c8 c9 = false) := by
  refine ⟨fun x => ⟨?_, ?_⟩, ?_, ?_, ?_, ?_, ?_, ?_, by decide, by decide⟩
  · rw [acceptGroundReflectivity]
    simp [and_comm]
  · rw [acceptClothingAbsorptivity]
    simp [and_comm]
  · rw [acceptGroundReflectivity]
    norm_num
  · rw [acceptGroundReflectivity]
    norm_num
  · rw [acceptClothingAbsorptivity]
    norm_num
  · rw [acceptClothingAbsorptivity]
    norm_num
  · rw [acceptGroundReflectivity]
    norm_num
  · rw [acceptClothingAbsorptivity]
    norm_num

/-- C10: for arbitrary rational azimuth, north and rotation angles the
azimuth folding loop terminates (its fuel-indexed iterates stabilise) on a
value in `[0, 180]`, whose integer truncation lies in `[0, 180]`; and for a
sun-up altitude of at most 90 degrees the altitude argument of the
projected-area-factor lookup lies in `[0, 90]`, both as `altFinal` and as
the `90 - altFinal` used for lying postures. -/
theorem lookup_arguments_in_bounds (cfg : SimpleCfg) (azimuthDeg altitudeDeg : ℚ)
    (h1 : 0 < altitudeDeg) (h2 : altitudeDeg ≤ 90) :
    (∃ fuel : ℕ,
      (∀ m, fuel ≤ m → normalizeAz m (azInitOf cfg azimuthDeg)
          = normalizeAz fuel (azInitOf cfg azimuthDeg))
      ∧ 0 ≤ normalizeAz fuel (azInitOf cfg azimuthDeg)
      ∧ normalizeAz fuel (azInitOf cfg azimuthDeg) ≤ 180
      ∧ 0 ≤ pyInt (normalizeAz fuel (azInitOf cfg azimuthDeg))
      ∧ pyInt (normalizeAz fuel (azInitOf cfg azimuthDeg)) ≤ 180)
    ∧ 0 ≤ altFinalOf altitudeDeg ∧ altFinalOf altitudeDeg ≤ 90
    ∧ 0 ≤ 90 - altFinalOf altitudeDeg ∧ 90 - altFinalOf altitudeDeg ≤ 90 := by
  constructor
  · obtain ⟨fuel, hstable, h0, h180⟩ := normalizeAz_spec (azInitOf cfg azimuthDeg)
    obtain ⟨hp0, hp180⟩ := pyInt_range_bounds h0 h180
    exact ⟨fuel, hstable, h0, h180, hp0, hp180⟩
  · have hi0 : 0 ≤ pyInt altitudeDeg := by
      rw [pyInt, if_pos (le_of_lt h1)]
      exact Int.floor_nonneg.mpr (le_of_lt h1)
    have hi90 : pyInt altitudeDeg ≤ 90 := by
      rw [pyInt, if_pos (le_of_lt h1)]
      have h := Int.floor_le_floor (α := ℚ) h2
      simpa using h
    have hfin : altFinalOf altitudeDeg = pyInt altitudeDeg := by
      rw [altFinalOf, if_neg (not_lt.mpr hi90)]
    rw [hfin]
    omega

theorem lookup_arguments_in_bounds_witness :
    ((0 : ℚ) < 45 ∧ (45 : ℚ) ≤ 90)
    ∧ ((∃ fuel : ℕ,
        (∀ m, fuel ≤ m → normalizeAz m (azInitOf sampleSimpleCfg 500)
            = normalizeAz fuel (azInitOf sampleSimpleCfg 500))
        ∧ 0 ≤ normalizeAz fuel (azInitOf sampleSimpleCfg 500)
        ∧ normalizeAz fuel (azInitOf sampleSimpleCfg 500) ≤ 180
        ∧ 0 ≤ pyInt (normalizeAz fuel (azInitOf sampleSimpleCfg 500))
        ∧ pyInt (normalizeAz fuel (azInitOf sampleSimpleCfg 500)) ≤ 180)
      ∧ 0 ≤ altFinalOf 45 ∧ altFinalOf 45 ≤ 90
      ∧ 0 ≤ 90 - altFinalOf 45 ∧ 90 - altFinalOf 45 ≤ 90) :=
  ⟨⟨by norm_num, by norm_num⟩,
    lookup_arguments_in_bounds sampleSimpleCfg 500 45 (by norm_num) (by norm_num)⟩

end Ladybug
